import Mathlib

/-!
Verification of the tfpecker tool (src/tfpecker.py): a shallow embedding of
its file discovery, comment stripping, secret scanning and packing logic,
together with theorems settling the specification claims.

Strings are modelled by Lean `String` (a wrapped `List Char`); Python's
`str.split('\n')` is modelled by `splitLines` on the character list, and
Python's regex block-comment removal `re.sub(r'/\*.*?\*/', '', s, DOTALL)`
by the fuel-driven scanner `removeBlockCommentsFuel` (leftmost match, lazy
closing delimiter), with fuel instantiated to the list length.
-/

namespace Tfpecker

/-- Python `s.split('\n')`: split a character list on newline characters.
`splitLines [] = [[]]`, matching Python's `"".split('\n') == ['']`. -/
def splitLines : List Char → List (List Char)
  | [] => [[]]
  | c :: rest =>
    if c = '\n' then [] :: splitLines rest
    else
      match splitLines rest with
      | l :: ls => (c :: l) :: ls
      | [] => [[c]]

/-- Rejoin lines with single newline separators, Python `'\n'.join(lines)`. -/
def joinLines : List (List Char) → List Char
  | [] => []
  | [l] => l
  | l :: l' :: ls => l ++ '\n' :: joinLines (l' :: ls)

/-- Python `s.strip()`: drop whitespace from both ends of a character list. -/
def trimChars (l : List Char) : List Char :=
  ((l.dropWhile Char.isWhitespace).reverse.dropWhile Char.isWhitespace).reverse

/-- Python `needle in hay` substring test on strings. -/
def strContains (hay needle : String) : Bool :=
  decide (needle.data <:+: hay.data)

/-- After an opening `/*`, scan for the first closing `*/` (the lazy `.*?`
match of the regex) and return the characters after it; `none` when no
closing delimiter exists. -/
def dropThroughClose : List Char → Option (List Char)
  | '*' :: '/' :: rest => some rest
  | _ :: rest => dropThroughClose rest
  | [] => none

/-- One pass of `re.sub(r'/\*.*?\*/', '', content, flags=re.DOTALL)`:
leftmost-to-rightmost, non-overlapping removal of `/* ... */` spans, each
span closed by the first following `*/`.  An unclosed `/*` is left in place
(the regex then has no match there, and none later either).  The fuel
argument only serves structural termination; `removeBlockComments` supplies
the list length, which is always sufficient. -/
def removeBlockCommentsFuel : Nat → List Char → List Char
  | 0, l => l
  | _ + 1, [] => []
  | _ + 1, [c] => [c]
  | fuel + 1, c :: d :: rest =>
    if c = '/' ∧ d = '*' then
      match dropThroughClose rest with
      | some rest' => removeBlockCommentsFuel fuel rest'
      | none => c :: d :: removeBlockCommentsFuel fuel rest
    else c :: removeBlockCommentsFuel fuel (d :: rest)

/-- Block-comment removal over a whole character list. -/
def removeBlockComments (l : List Char) : List Char :=
  removeBlockCommentsFuel l.length l

/-- Python `line.lstrip().startswith('#')`. -/
def startsWithHash (line : List Char) : Bool :=
  match line.dropWhile Char.isWhitespace with
  | '#' :: _ => true
  | _ => false

/-- Model of `TerraformPacker.remove_terraform_comments` (src/tfpecker.py lines
95-109): strip `/* ... */` block comments, then drop every line whose
left-stripped text starts with `#`, and rejoin with newlines. -/
def remove_terraform_comments (content : String) : String :=
  let noBlocks := removeBlockComments content.data
  let lines := splitLines noBlocks
  let cleaned := lines.filter (fun line => !startsWithHash line)
  String.mk (joinLines cleaned)

/-- The fixed keyword list of `warn_about_potential_secrets`
(src/tfpecker.py line 114). -/
def secret_keywords : List String :=
  ["password", "secret", "key", "token", "credential", "api_key", "access_key"]

/-- Python `any(keyword in lower_line for keyword in keywords)` for one line. -/
def lineHasSecret (line : List Char) : Bool :=
  secret_keywords.any (fun k => decide (k.data <:+: line.map Char.toLower))

/-- The f-string `f"Line {i} might contain sensitive information: {line.strip()}"`. -/
def warningMessage (i : Nat) (line : List Char) : String :=
  "Line " ++ toString i ++ " might contain sensitive information: " ++
    String.mk (trimChars line)

/-- Model of `TerraformPacker.warn_about_potential_secrets` (src/tfpecker.py lines
111-122): for each 1-indexed line whose lowercase form contains one of the
keywords, append one warning message. -/
def warn_about_potential_secrets (content : String) : List String :=
  (splitLines content.data).enum.foldl
    (fun ws p =>
      if lineHasSecret p.2 then ws ++ [warningMessage (p.1 + 1) p.2] else ws)
    []

/-- The pack configuration held by `TerraformPacker.__init__`.  A path is
modelled as a list of segments; `base_path` is the scan root. -/
structure Config where
  base_path : List String
  remove_comments : Bool
  include_tfvars : Bool
  include_readme : Bool

/-- Python `str(path)` of a segment-list path, POSIX style. -/
def pathStr (p : List String) : String :=
  String.intercalate "/" p

/-- The file name of a path: its last segment (paths of files are nonempty). -/
def fileName (p : List String) : String :=
  (p.getLast?).getD ""

/-- Name matching, `fnmatch`-style, for the patterns tfpecker passes to
`rglob`: either a literal name (`README.md`, ...) or a single leading `*`
followed by a literal suffix (`*.tf`, `*.tfvars`, ...).  No other
metacharacters occur in the source. -/
def globMatch (pat nm : String) : Bool :=
  match pat.data with
  | '*' :: suffix => decide (suffix <:+ nm.data)
  | _ => pat == nm

/-- The base ignore set of `TerraformPacker.__init__` (src/tfpecker.py
lines 17-63), as a list; Python set iteration order is irrelevant because
the set is only consumed through `any(...)`. -/
def base_ignore : List String :=
  ["*.tfstate", "*.tfstate.backup", ".terraform", ".terraform.lock.hcl",
   "crash.log", "override.tf", "override.tf.json",
   ".git", ".gitignore", ".svn", ".hg",
   ".idea", ".vscode", "*.swp", "*.swo", "*.swn", "*~",
   ".DS_Store", "Thumbs.db",
   "node_modules", "vendor", "__pycache__", "*.pyc",
   "*.log", "logs",
   ".env", ".envrc", ".direnv",
   "docs", "*.md"]

/-- The tfvars patterns added to the ignore set when `include_tfvars` is
off, and used as discovery patterns when it is on. -/
def tfvars_patterns : List String :=
  ["*.tfvars", "*.tfvars.json", "*.auto.tfvars"]

/-- The ignore set after `__init__`: the base set, plus the tfvars patterns
when `include_tfvars` is disabled (src/tfpecker.py lines 64-65). -/
def default_ignore (include_tfvars : Bool) : List String :=
  if include_tfvars then base_ignore else base_ignore ++ tfvars_patterns

/-- Python `not any(ignore in str(path) for ignore in self.default_ignore)`
negated: true iff some active pattern is a literal substring of the path
string (src/tfpecker.py line 73). -/
def is_ignored (ignore : List String) (path : String) : Bool :=
  ignore.any (fun pat => strContains path pat)

/-- One `self.base_path.rglob(pattern)` loop with the ignore filter: the
filesystem `fs` is the list of file paths under the base directory,
relative to it; `rglob` yields `base_path / r` for every file whose name
matches the pattern, and the loop keeps those not hitting the ignore set. -/
def rglobPass (base : List String) (fs : List (List String))
    (pat : String) (ignore : List String) : List (List String) :=
  ((fs.filter (fun r => globMatch pat (fileName r))).map
      (fun r => base ++ r)).filter
    (fun p => !is_ignored ignore (pathStr p))

/-- The README name patterns (src/tfpecker.py line 86). -/
def readme_patterns : List String :=
  ["README.md", "README.markdown", "Readme.md"]

/-- Lexicographic comparison of character lists by code point, Python's
string `<=`. -/
def charListLe : List Char → List Char → Bool
  | [], _ => true
  | _ :: _, [] => false
  | a :: as, b :: bs =>
    if a.toNat = b.toNat then charListLe as bs else decide (a.toNat < b.toNat)

/-- Comparison used by Python's `sorted` on `Path` values: lexicographic on
the path string.  `sorted` is a stable sort; insertion sort is stable too. -/
def pathLe (p q : List String) : Prop :=
  charListLe (pathStr p).data (pathStr q).data = true

instance : DecidableRel pathLe := fun p q =>
  inferInstanceAs (Decidable (charListLe (pathStr p).data (pathStr q).data = true))

theorem charListLe_total : ∀ a b : List Char, charListLe a b = true ∨ charListLe b a = true
  | [], _ => Or.inl rfl
  | _ :: _, [] => Or.inr rfl
  | a :: as, b :: bs => by
    by_cases h : a.toNat = b.toNat
    · rcases charListLe_total as bs with h' | h'
      · exact Or.inl (by simp [charListLe, h, h'])
      · exact Or.inr (by simp [charListLe, h.symm, h'])
    · rcases Nat.lt_or_ge a.toNat b.toNat with hlt | hge
      · exact Or.inl (by simp [charListLe, h, hlt])
      · have hne : ¬b.toNat = a.toNat := by omega
        have hgt : b.toNat < a.toNat := by omega
        exact Or.inr (by simp [charListLe, hne, hgt])

theorem charListLe_trans :
    ∀ a b c : List Char, charListLe a b = true → charListLe b c = true →
      charListLe a c = true
  | [], _, _, _, _ => rfl
  | _ :: _, [], _, hab, _ => by simp [charListLe] at hab
  | _ :: _, _ :: _, [], _, hbc => by simp [charListLe] at hbc
  | a :: as, b :: bs, c :: cs, hab, hbc => by
    by_cases h1 : a.toNat = b.toNat <;> by_cases h2 : b.toNat = c.toNat
    · simp only [charListLe, if_pos h1, if_pos h2] at hab hbc
      have heq : a.toNat = c.toNat := h1.trans h2
      simp [charListLe, heq, charListLe_trans as bs cs hab hbc]
    · simp only [charListLe, if_pos h1, if_neg h2] at hbc
      have hlt : b.toNat < c.toNat := of_decide_eq_true hbc
      have hac : a.toNat < c.toNat := by omega
      have hne : ¬a.toNat = c.toNat := by omega
      simp [charListLe, hne, hac]
    · simp only [charListLe, if_neg h1, if_pos h2] at hab
      have hlt : a.toNat < b.toNat := of_decide_eq_true hab
      have hac : a.toNat < c.toNat := by omega
      have hne : ¬a.toNat = c.toNat := by omega
      simp [charListLe, hne, hac]
    · simp only [charListLe, if_neg h1, if_neg h2] at hab hbc
      have hlt1 : a.toNat < b.toNat := of_decide_eq_true hab
      have hlt2 : b.toNat < c.toNat := of_decide_eq_true hbc
      have hac : a.toNat < c.toNat := by omega
      have hne : ¬a.toNat = c.toNat := by omega
      simp [charListLe, hne, hac]

instance : IsTotal (List String) pathLe :=
  ⟨fun p q => charListLe_total (pathStr p).data (pathStr q).data⟩

instance : IsTrans (List String) pathLe :=
  ⟨fun _ _ _ h h' => charListLe_trans _ _ _ h h'⟩

/-- Python `sorted(relevant_files)` (src/tfpecker.py line 93). -/
def sortPaths (l : List (List String)) : List (List String) :=
  l.insertionSort pathLe

/-- Model of `TerraformPacker.find_relevant_files` (src/tfpecker.py lines 67-93):
the `*.tf` pass, the optional tfvars passes, the optional README passes
with `*.md` removed from the ignore set for their duration, merged and
sorted.  `fs` lists the files under the base directory. -/
def find_relevant_files (cfg : Config) (fs : List (List String)) : List (List String) :=
  let ignore := default_ignore cfg.include_tfvars
  let tfFiles := rglobPass cfg.base_path fs "*.tf" ignore
  let tfvarsFiles :=
    if cfg.include_tfvars then
      tfvars_patterns.flatMap (fun pat => rglobPass cfg.base_path fs pat ignore)
    else []
  let readmeFiles :=
    if cfg.include_readme then
      readme_patterns.flatMap
        (fun pat => rglobPass cfg.base_path fs pat (ignore.erase "*.md"))
    else []
  sortPaths (tfFiles ++ tfvarsFiles ++ readmeFiles)

/-- Model of `Path.relative_to`: strips the base prefix, `none` models the
`ValueError` raised when the path is not under the base. -/
def relative_to (p base : List String) : Option (List String) :=
  if base <+: p then some (p.drop base.length) else none

/-- A file as seen by `pack_files`: its path relative to the base directory
(the value of `file.relative_to(self.base_path)`), and the result of
reading it — `.ok content`, or `.error e` modelling an exception whose
string form is `e`.  Both reads of the same file in one run return the same
result. -/
structure PackFile where
  relpath : List String
  content : Except String String

/-- Python `str(relative_path)` for a packed file. -/
def relStr (f : PackFile) : String :=
  pathStr f.relpath

/-- Python `"c" * n` for a character `c`. -/
def repeatChar (c : Char) (n : Nat) : String :=
  String.mk (List.replicate n c)

/-- The warnings the pre-scan pass contributes for one file
(src/tfpecker.py lines 140-149): the secret warnings on the raw content,
each prefixed with the relative path; a file whose read fails contributes
none. -/
def prefixedWarnings (f : PackFile) : List String :=
  match f.content with
  | .ok c => (warn_about_potential_secrets c).map (fun w => relStr f ++ ": " ++ w)
  | .error _ => []

/-- The console lines the pre-scan pass prints for one file: only the
read-error message (src/tfpecker.py line 149). -/
def prescanConsole (f : PackFile) : List String :=
  match f.content with
  | .ok _ => []
  | .error e => ["Error reading file for security check: " ++ e]

/-- The content written for a file in the content pass, after the optional
comment stripping (src/tfpecker.py lines 183-185). -/
def processedContent (rc : Bool) (c : String) : String :=
  if rc then remove_terraform_comments c else c

/-- The warnings the content pass contributes for one file: the secret scan
of the (possibly comment-stripped) content, path-prefixed (src/tfpecker.py
lines 188-190); none on a read error. -/
def contentWarnings (rc : Bool) (f : PackFile) : List String :=
  match f.content with
  | .ok c =>
    (warn_about_potential_secrets (processedContent rc c)).map
      (fun w => relStr f ++ ": " ++ w)
  | .error _ => []

/-- The text block the content pass writes for one file: header line,
dash underline of length `len(str(relative_path)) + 6`, blank line, then
the processed content or the inline read-error message, then the blank
separator (src/tfpecker.py lines 176-196). -/
def fileBlock (rc : Bool) (f : PackFile) : String :=
  "File: " ++ relStr f ++ "\n" ++ repeatChar '-' ((relStr f).length + 6) ++ "\n\n" ++
    (match f.content with
     | .ok c => processedContent rc c
     | .error e => "Error reading file: " ++ e) ++ "\n\n"

/-- The full warning accumulator `all_warnings` at the end of a run:
pre-scan warnings of every file, then content-pass warnings of every file,
with no deduplication. -/
def allWarnings (rc : Bool) (files : List PackFile) : List String :=
  files.flatMap prefixedWarnings ++ files.flatMap (contentWarnings rc)

def bang50 : String := repeatChar '!' 50

def secretsReminder : String :=
  "IMPORTANT: VERIFY FOR SECRETS!\n" ++
    "Double-check this file before sharing with LLM models to ensure no secrets or sensitive data are included.\n"

/-- The warning list written inside a banner: nothing when the accumulator
is empty, otherwise a heading and one `- `-bulleted line per warning
(src/tfpecker.py lines 151-154 and 202-205). -/
def warningsBlock (ws : List String) : String :=
  if ws.isEmpty then ""
  else
    "\nPotential sensitive information detected:\n" ++
      String.join (ws.map (fun w => "- " ++ w ++ "\n"))

/-- The console lines printed when the pre-scan found warnings
(src/tfpecker.py lines 156-161). -/
def warningConsole (ws : List String) : List String :=
  if ws.isEmpty then []
  else
    ["\n" ++ bang50, "⚠️  SECURITY WARNING: Potential sensitive information detected:"] ++
      ws.map (fun w => "- " ++ w) ++ [bang50 ++ "\n"]

/-- Model of `TerraformPacker.pack_files` (src/tfpecker.py lines 124-206), given the
discovered files with their read results: returns the text written to the
output file and the list of console lines, in write order.  Every per-file
read error is handled inside; the function is total, modelling that
`pack_files` never propagates a per-file read error to its caller. -/
def pack_files (rc : Bool) (files : List PackFile) : String × List String :=
  let preWs := files.flatMap prefixedWarnings
  let allWs := allWarnings rc files
  let out :=
    "Terraform Infrastructure as Code Package (tfpecker output)\n" ++
      repeatChar '=' 50 ++ "\n\n" ++
      bang50 ++ "\n" ++ secretsReminder ++
      warningsBlock preWs ++
      bang50 ++ "\n\n" ++
      "Repository Structure\n" ++ repeatChar '=' 20 ++ "\n\n" ++
      String.join (files.map (fun f => relStr f ++ "\n")) ++
      "\nFile Contents\n" ++ repeatChar '=' 20 ++ "\n\n" ++
      String.join (files.map (fileBlock rc)) ++
      "\n" ++ bang50 ++ "\n" ++ secretsReminder ++
      warningsBlock allWs ++
      bang50 ++ "\n"
  let console := files.flatMap prescanConsole ++ warningConsole preWs
  (out, console)

end Tfpecker

section Scratch
open Tfpecker
example : remove_terraform_comments "a = 1\n# note\nb = 2" = "a = 1\nb = 2" := by decide
example :
    remove_terraform_comments
        "/* secret\nkey=1 */\n# comment\nresource \"x\" {}\n// not a comment" =
      "\nresource \"x\" {}\n// not a comment" := by decide
example :
    warn_about_potential_secrets "API_KEY = \"abc\"\nfine line\nPassword: xyz" =
      ["Line 1 might contain sensitive information: API_KEY = \"abc\"",
       "Line 3 might contain sensitive information: Password: xyz"] := by decide
example : remove_terraform_comments "A//*c*/*B*/C" = "A/*B*/C" := by decide
example : remove_terraform_comments "A/*B*/C" = "AC" := by decide
example :
    find_relevant_files ⟨["proj"], false, false, false⟩
        [["a.tf"], ["b.tf"], [".terraform", "cache.tf"]] =
      [["proj", "a.tf"], ["proj", "b.tf"]] := by decide
example :
    find_relevant_files ⟨["proj"], false, true, false⟩ [["f.auto.tfvars"]] =
      [["proj", "f.auto.tfvars"], ["proj", "f.auto.tfvars"]] := by decide
example :
    find_relevant_files ⟨["proj"], false, false, true⟩
        [["README.md"], ["notes.md"], ["Readme.markdown"]] =
      [["proj", "README.md"]] := by decide
end Scratch

namespace Tfpecker

theorem foldl_if_append {α β : Type} (p : α → Bool) (f : α → β) :
    ∀ (l : List α) (acc : List β),
      l.foldl (fun ws x => if p x then ws ++ [f x] else ws) acc =
        acc ++ (l.filter p).map f := by
  intro l
  induction l with
  | nil => intro acc; simp
  | cons a l ih =>
    intro acc
    by_cases h : p a
    · simp [List.foldl_cons, h, ih, List.filter_cons]
    · simp [List.foldl_cons, h, ih, List.filter_cons]

theorem lineHasSecret_iff (line : List Char) :
    lineHasSecret line = true ↔
      ∃ k ∈ secret_keywords, k.data <:+: line.map Char.toLower := by
  simp [lineHasSecret, List.any_eq_true]

/-- C1: for every content string, `warn_about_potential_secrets` reports a
warning for a 1-indexed line exactly when the lowercased line contains one
of the seven fixed keywords as a substring; the warning carries the
original-case, whitespace-trimmed line text, and each matching line yields
exactly one warning per scan. -/
theorem C1_secret_scan (content : String) :
    warn_about_potential_secrets content =
      ((splitLines content.data).enum.filter
          (fun q => decide (∃ k ∈ secret_keywords, k.data <:+: q.2.map Char.toLower))).map
        (fun q => warningMessage (q.1 + 1) q.2) := by
  unfold warn_about_potential_secrets
  rw [foldl_if_append]
  rw [List.nil_append]
  congr 1
  apply List.filter_congr
  intro q _
  rw [Bool.eq_iff_iff]
  rw [lineHasSecret_iff]
  simp

/-- C3 (counterexample): on the example content, comment stripping does not
return the claimed string — the newline that followed the block comment's
closing delimiter survives as a leading empty line. -/
theorem C3_counterexample :
    remove_terraform_comments
        "/* secret\nkey=1 */\n# comment\nresource \"x\" {}\n// not a comment" ≠
      "resource \"x\" {}\n// not a comment" := by decide

/-- C3 (amended): applying `remove_terraform_comments` to the content
`"/* secret\nkey=1 */\n# comment\nresource \"x\" {}\n// not a comment"`
yields exactly `"\nresource \"x\" {}\n// not a comment"`: the block comment
and the `#`-line are removed and the `//`-line retained, but the line that
held the block comment leaves an empty first line. -/
theorem C3_amended :
    remove_terraform_comments
        "/* secret\nkey=1 */\n# comment\nresource \"x\" {}\n// not a comment" =
      "\nresource \"x\" {}\n// not a comment" := by decide

/-- C6: `find_relevant_files` does not deduplicate across discovery passes:
with tfvars inclusion enabled, a file named `f.auto.tfvars` matches both
the `*.tfvars` and the `*.auto.tfvars` pass and is returned twice. -/
theorem C6_duplicates :
    find_relevant_files ⟨["proj"], false, true, false⟩ [["f.auto.tfvars"]] =
        [["proj", "f.auto.tfvars"], ["proj", "f.auto.tfvars"]] ∧
      ¬ (find_relevant_files ⟨["proj"], false, true, false⟩
          [["f.auto.tfvars"]]).Nodup := by
  constructor
  · decide
  · decide

theorem splitLines_cons_of_ne {c : Char} (h : ¬ c = '\n') (rest : List Char) :
    splitLines (c :: rest) =
      match splitLines rest with
      | l :: ls => (c :: l) :: ls
      | [] => [[c]] := by
  simp only [splitLines, if_neg h]

theorem splitLines_ne_nil : ∀ l : List Char, splitLines l ≠ [] := by
  intro l
  induction l with
  | nil => simp [splitLines]
  | cons c rest ih =>
    by_cases h : c = '\n'
    · subst h; simp [splitLines]
    · rw [splitLines_cons_of_ne h]
      rcases h' : splitLines rest with _ | ⟨m, ms⟩ <;> simp

theorem joinLines_cons_cons (c : Char) (l : List Char) (ls : List (List Char)) :
    joinLines ((c :: l) :: ls) = c :: joinLines (l :: ls) := by
  cases ls with
  | nil => rfl
  | cons x xs => rfl

theorem joinLines_splitLines : ∀ l : List Char, joinLines (splitLines l) = l := by
  intro l
  induction l with
  | nil => rfl
  | cons c rest ih =>
    by_cases h : c = '\n'
    · subst h
      show joinLines ([] :: splitLines rest) = '\n' :: rest
      rcases h' : splitLines rest with _ | ⟨m, ms⟩
      · exact absurd h' (splitLines_ne_nil rest)
      · rw [h'] at ih
        show joinLines ([] :: m :: ms) = '\n' :: rest
        show [] ++ '\n' :: joinLines (m :: ms) = '\n' :: rest
        rw [List.nil_append, ih]
    · rw [splitLines_cons_of_ne h]
      rcases h' : splitLines rest with _ | ⟨m, ms⟩
      · exact absurd h' (splitLines_ne_nil rest)
      · rw [h'] at ih
        simp only []
        rw [joinLines_cons_cons, ih]

theorem rbcf_nil (f : Nat) : removeBlockCommentsFuel f [] = [] := by
  cases f <;> rfl

theorem rbcf_cons_of_no_open (f : Nat) (c d : Char) (rest : List Char)
    (h : ¬ (c = '/' ∧ d = '*')) :
    removeBlockCommentsFuel (f + 1) (c :: d :: rest) =
      c :: removeBlockCommentsFuel f (d :: rest) := by
  simp only [removeBlockCommentsFuel, if_neg h]

theorem rbcf_of_no_open :
    ∀ (l : List Char) (fuel : Nat), l.length ≤ fuel → ¬ (['/', '*'] <:+: l) →
      removeBlockCommentsFuel fuel l = l := by
  intro l
  induction l with
  | nil => intro fuel _ _; exact rbcf_nil fuel
  | cons c rest ih =>
    intro fuel hlen hno
    cases fuel with
    | zero => simp at hlen
    | succ f =>
      have hrest : ¬ (['/', '*'] <:+: rest) := by
        rintro ⟨s, t, hst⟩
        exact hno ⟨c :: s, t, by simp [hst]⟩
      have hlen' : rest.length ≤ f := by simp at hlen; omega
      rcases rest with _ | ⟨d, rest'⟩
      · rfl
      · have hcd : ¬ (c = '/' ∧ d = '*') := by
          rintro ⟨rfl, rfl⟩
          exact hno ⟨[], rest', rfl⟩
        rw [rbcf_cons_of_no_open f c d rest' hcd, ih f hlen' hrest]

theorem removeBlockComments_of_no_open (l : List Char) (h : ¬ (['/', '*'] <:+: l)) :
    removeBlockComments l = l :=
  rbcf_of_no_open l l.length le_rfl h

/-- C9: `remove_terraform_comments` is the identity on comment-free input:
if the content has no `/*` occurrence and no line whose left-stripped form
begins with `#`, the content is returned unchanged (splitting on newlines
and rejoining reproduces it exactly). -/
theorem C9_identity (content : String)
    (hb : ¬ (['/', '*'] <:+: content.data))
    (hl : ∀ line ∈ splitLines content.data, startsWithHash line = false) :
    remove_terraform_comments content = content := by
  show String.mk (joinLines ((splitLines (removeBlockComments content.data)).filter
      (fun line => !startsWithHash line))) = content
  rw [removeBlockComments_of_no_open _ hb]
  have hfilter : (splitLines content.data).filter (fun line => !startsWithHash line) =
      splitLines content.data := by
    apply List.filter_eq_self.mpr
    intro a ha
    simp [hl a ha]
  rw [hfilter, joinLines_splitLines]

theorem C9_identity_witness :
    (¬ (['/', '*'] <:+: ("resource \"x\" {}\n// ok").data)) ∧
      (∀ line ∈ splitLines ("resource \"x\" {}\n// ok").data,
        startsWithHash line = false) ∧
      remove_terraform_comments "resource \"x\" {}\n// ok" =
        "resource \"x\" {}\n// ok" :=
  ⟨by decide, by decide, C9_identity _ (by decide) (by decide)⟩

theorem mem_sortPaths {l : List (List String)} {p : List String} :
    p ∈ sortPaths l ↔ p ∈ l :=
  List.mem_insertionSort pathLe

theorem mem_rglobPass_iff {base : List String} {fs : List (List String)}
    {pat : String} {ignore : List String} {p : List String} :
    p ∈ rglobPass base fs pat ignore ↔
      ∃ r ∈ fs, p = base ++ r ∧ globMatch pat (fileName r) = true ∧
        is_ignored ignore (pathStr (base ++ r)) = false := by
  unfold rglobPass
  simp only [List.mem_filter, List.mem_map, Bool.not_eq_true']
  constructor
  · rintro ⟨⟨r, ⟨hr, hglob⟩, rfl⟩, hig⟩
    exact ⟨r, hr, rfl, hglob, hig⟩
  · rintro ⟨r, hr, rfl, hglob, hig⟩
    exact ⟨⟨r, ⟨hr, hglob⟩, rfl⟩, hig⟩

theorem mem_find_iff {cfg : Config} {fs : List (List String)} {p : List String} :
    p ∈ find_relevant_files cfg fs ↔
      (p ∈ rglobPass cfg.base_path fs "*.tf" (default_ignore cfg.include_tfvars) ∨
        (cfg.include_tfvars = true ∧ ∃ pat ∈ tfvars_patterns,
          p ∈ rglobPass cfg.base_path fs pat (default_ignore cfg.include_tfvars)) ∨
        (cfg.include_readme = true ∧ ∃ pat ∈ readme_patterns,
          p ∈ rglobPass cfg.base_path fs pat
            ((default_ignore cfg.include_tfvars).erase "*.md"))) := by
  unfold find_relevant_files
  rw [mem_sortPaths]
  cases htv : cfg.include_tfvars <;> cases hir : cfg.include_readme <;>
    simp [List.mem_append, List.mem_flatMap, and_comm]

theorem is_ignored_iff (ig : List String) (path : String) :
    is_ignored ig path = true ↔ ∃ pat ∈ ig, pat.data <:+: path.data := by
  simp [is_ignored, strContains, List.any_eq_true]

theorem globMatch_star_iff {suf : List Char} {pat : String} (nm : String)
    (hp : pat.data = '*' :: suf) :
    globMatch pat nm = true ↔ suf <:+ nm.data := by
  unfold globMatch
  rw [hp]
  simp

/-- C2: with default flags, `find_relevant_files` returns exactly the files
under the base path whose name matches `*.tf` (name ends with `.tf`) and
whose full path string contains no active ignore pattern as a literal
substring; `is_ignored` is exactly the some-pattern-is-a-substring test;
the result is sorted lexicographically by path string; and on a directory
holding `a.tf`, `b.tf` and `.terraform/cache.tf` it returns exactly the
first two, the `.terraform` file absent. -/
theorem C2_find_default (cfg : Config) (fs : List (List String))
    (htv : cfg.include_tfvars = false) (hir : cfg.include_readme = false) :
    (∀ p, p ∈ find_relevant_files cfg fs ↔
        ∃ r ∈ fs, p = cfg.base_path ++ r ∧ ".tf".data <:+ (fileName r).data ∧
          is_ignored (default_ignore false) (pathStr p) = false)
      ∧ List.Sorted pathLe (find_relevant_files cfg fs)
      ∧ (∀ ig path, is_ignored ig path = true ↔ ∃ pat ∈ ig, pat.data <:+: path.data)
      ∧ find_relevant_files ⟨["proj"], false, false, false⟩
          [["a.tf"], ["b.tf"], [".terraform", "cache.tf"]] =
        [["proj", "a.tf"], ["proj", "b.tf"]] := by
  refine ⟨fun p => ?_, ?_, is_ignored_iff, by decide⟩
  · rw [mem_find_iff, htv, hir]
    simp only [Bool.false_eq_true, false_and, or_false]
    rw [mem_rglobPass_iff]
    constructor
    · rintro ⟨r, hr, rfl, hglob, hig⟩
      exact ⟨r, hr, rfl,
        (globMatch_star_iff (fileName r) (by decide)).mp hglob, hig⟩
    · rintro ⟨r, hr, rfl, hsuf, hig⟩
      exact ⟨r, hr, rfl,
        (globMatch_star_iff (fileName r) (by decide)).mpr hsuf, hig⟩
  · exact List.sorted_insertionSort pathLe _

theorem C2_find_default_witness :
    (false = false) ∧
      ((∀ p, p ∈ find_relevant_files ⟨["proj"], false, false, false⟩
            [["a.tf"], ["b.tf"], [".terraform", "cache.tf"]] ↔
          ∃ r ∈ [["a.tf"], ["b.tf"], [".terraform", "cache.tf"]],
            p = ["proj"] ++ r ∧ ".tf".data <:+ (fileName r).data ∧
              is_ignored (default_ignore false) (pathStr p) = false)
        ∧ List.Sorted pathLe (find_relevant_files ⟨["proj"], false, false, false⟩
            [["a.tf"], ["b.tf"], [".terraform", "cache.tf"]])
        ∧ (∀ ig path, is_ignored ig path = true ↔
            ∃ pat ∈ ig, pat.data <:+: path.data)
        ∧ find_relevant_files ⟨["proj"], false, false, false⟩
            [["a.tf"], ["b.tf"], [".terraform", "cache.tf"]] =
          [["proj", "a.tf"], ["proj", "b.tf"]]) :=
  ⟨rfl, C2_find_default ⟨["proj"], false, false, false⟩
    [["a.tf"], ["b.tf"], [".terraform", "cache.tf"]] rfl rfl⟩

theorem fileName_append (base : List String) {r : List String} (h : r ≠ []) :
    fileName (base ++ r) = fileName r := by
  unfold fileName
  rw [List.getLast?_append]
  rcases r with _ | ⟨a, rs⟩
  · exact absurd rfl h
  · rcases h' : (a :: rs).getLast? with _ | x
    · rw [List.getLast?_eq_none_iff] at h'
      exact absurd h' (by simp)
    · simp [h']

/-- C5: the README pass of `find_relevant_files` (which uses the ignore set
with `*.md` removed only for its duration) collects only files named
exactly `README.md`, `README.markdown` or `Readme.md`, case-sensitively;
a Markdown-named file with any other name is never in the result, whatever
the flags, and README-named results require `include_readme`. -/
theorem C5_readme_restriction (cfg : Config) (fs : List (List String))
    (p : List String) (hp : p ∈ find_relevant_files cfg fs)
    (hmd : ".md".data <:+ (fileName p).data ∨ ".markdown".data <:+ (fileName p).data) :
    (fileName p = "README.md" ∨ fileName p = "README.markdown" ∨
        fileName p = "Readme.md")
      ∧ cfg.include_readme = true := by
  rcases mem_find_iff.mp hp with h | ⟨htv, pat, hpat, h⟩ | ⟨hir, pat, hpat, h⟩
  · obtain ⟨r, hr, rfl, hglob, _⟩ := mem_rglobPass_iff.mp h
    rcases eq_or_ne r [] with rfl | hne
    · exact absurd hglob (by decide)
    · have htf : ".tf".data <:+ (fileName r).data :=
        (@globMatch_star_iff (".tf".data) "*.tf" (fileName r) (by decide)).mp hglob
      rw [fileName_append _ hne] at hmd
      rcases hmd with hmd | hmd <;>
        rcases List.suffix_or_suffix_of_suffix htf hmd with hh | hh <;>
          exact absurd hh (by decide)
  · obtain ⟨r, hr, rfl, hglob, _⟩ := mem_rglobPass_iff.mp h
    rcases eq_or_ne r [] with rfl | hne
    · fin_cases hpat <;> exact absurd hglob (by decide)
    · rw [fileName_append _ hne] at hmd
      fin_cases hpat
      · have hsuf : ".tfvars".data <:+ (fileName r).data :=
          (@globMatch_star_iff (".tfvars".data) "*.tfvars" (fileName r)
            (by decide)).mp hglob
        rcases hmd with hmd | hmd <;>
          rcases List.suffix_or_suffix_of_suffix hsuf hmd with hh | hh <;>
            exact absurd hh (by decide)
      · have hsuf : ".tfvars.json".data <:+ (fileName r).data :=
          (@globMatch_star_iff (".tfvars.json".data) "*.tfvars.json" (fileName r)
            (by decide)).mp hglob
        rcases hmd with hmd | hmd <;>
          rcases List.suffix_or_suffix_of_suffix hsuf hmd with hh | hh <;>
            exact absurd hh (by decide)
      · have hsuf : ".auto.tfvars".data <:+ (fileName r).data :=
          (@globMatch_star_iff (".auto.tfvars".data) "*.auto.tfvars" (fileName r)
            (by decide)).mp hglob
        rcases hmd with hmd | hmd <;>
          rcases List.suffix_or_suffix_of_suffix hsuf hmd with hh | hh <;>
            exact absurd hh (by decide)
  · obtain ⟨r, hr, rfl, hglob, _⟩ := mem_rglobPass_iff.mp h
    refine ⟨?_, hir⟩
    rcases eq_or_ne r [] with rfl | hne
    · fin_cases hpat <;> exact absurd hglob (by decide)
    · rw [fileName_append _ hne]
      fin_cases hpat
      · exact Or.inl (eq_of_beq hglob).symm
      · exact Or.inr (Or.inl (eq_of_beq hglob).symm)
      · exact Or.inr (Or.inr (eq_of_beq hglob).symm)

theorem C5_readme_restriction_witness :
    (["proj", "README.md"] ∈ find_relevant_files ⟨["proj"], false, false, true⟩
        [["README.md"], ["notes.md"]]) ∧
      (".md".data <:+ (fileName ["proj", "README.md"]).data ∨
        ".markdown".data <:+ (fileName ["proj", "README.md"]).data) ∧
      ((fileName ["proj", "README.md"] = "README.md" ∨
          fileName ["proj", "README.md"] = "README.markdown" ∨
          fileName ["proj", "README.md"] = "Readme.md")
        ∧ (true = true)) :=
  ⟨by decide, by decide,
    C5_readme_restriction ⟨["proj"], false, false, true⟩
      [["README.md"], ["notes.md"]] ["proj", "README.md"]
      (by decide) (by decide)⟩

/-- C8: every path returned by `find_relevant_files` extends the base path,
so the `relative_to(base_path)` computation in `pack_files` always
succeeds; its error branch is unreachable. -/
theorem C8_paths_under_base (cfg : Config) (fs : List (List String))
    (p : List String) (hp : p ∈ find_relevant_files cfg fs) :
    cfg.base_path <+: p ∧ (relative_to p cfg.base_path).isSome := by
  have h := mem_find_iff.mp hp
  have hpre : cfg.base_path <+: p := by
    rcases h with h | ⟨_, _, _, h⟩ | ⟨_, _, _, h⟩ <;>
      · obtain ⟨r, _, rfl, _, _⟩ := mem_rglobPass_iff.mp h
        exact List.prefix_append _ _
  exact ⟨hpre, by simp [relative_to, hpre]⟩

theorem C8_paths_under_base_witness :
    (["proj", "a.tf"] ∈ find_relevant_files ⟨["proj"], false, false, false⟩
        [["a.tf"]]) ∧
      (["proj"] <+: ["proj", "a.tf"] ∧
        (relative_to ["proj", "a.tf"] ["proj"]).isSome) :=
  ⟨by decide, C8_paths_under_base ⟨["proj"], false, false, false⟩ [["a.tf"]]
    ["proj", "a.tf"] (by decide)⟩

theorem str_ext {a b : String} (h : a.data = b.data) : a = b := by
  cases a
  cases b
  cases h
  rfl

theorem str_data_append (a b : String) : (a ++ b).data = a.data ++ b.data := rfl

theorem join_nil : String.join [] = "" := rfl

theorem join_cons (x : String) (xs : List String) :
    String.join (x :: xs) = x ++ String.join xs := by
  rw [String.join_eq, String.join_eq]
  rfl

theorem join_append (a b : List String) :
    String.join (a ++ b) = String.join a ++ String.join b := by
  rw [String.join_eq, String.join_eq, String.join_eq]
  exact congrArg String.mk (by simp)

set_option maxRecDepth 4000 in
/-- C4: a pack run over one readable file whose content triggers a secret
warning produces output referencing the warning in three places — the
leading banner lists the path-prefixed warnings, the per-file content block
carries the offending content, and the trailing banner lists the full
accumulator of both scanning passes, which with comment stripping disabled
is the same warning list twice (duplicates kept). -/
theorem C4_pack_three_places (rp : List String) (c : String)
    (hw : warn_about_potential_secrets c ≠ []) :
    (∃ s1 s2, (pack_files false [⟨rp, Except.ok c⟩]).1 =
        s1 ++ "\nPotential sensitive information detected:\n" ++
          String.join ((prefixedWarnings ⟨rp, Except.ok c⟩).map
            (fun w => "- " ++ w ++ "\n")) ++ bang50 ++ "\n\n" ++ s2) ∧
      (∃ s1 s2, (pack_files false [⟨rp, Except.ok c⟩]).1 =
        s1 ++ "File: " ++ pathStr rp ++ "\n" ++
          repeatChar '-' ((pathStr rp).length + 6) ++ "\n\n" ++ c ++ "\n\n" ++ s2) ∧
      (∃ s1, (pack_files false [⟨rp, Except.ok c⟩]).1 =
        s1 ++ "\nPotential sensitive information detected:\n" ++
          String.join ((prefixedWarnings ⟨rp, Except.ok c⟩ ++
              prefixedWarnings ⟨rp, Except.ok c⟩).map
            (fun w => "- " ++ w ++ "\n")) ++ bang50 ++ "\n") := by
  have h3 : contentWarnings false ⟨rp, Except.ok c⟩ = prefixedWarnings ⟨rp, Except.ok c⟩ := by
    simp [contentWarnings, prefixedWarnings, processedContent]
  have h1 : (prefixedWarnings ⟨rp, Except.ok c⟩).isEmpty = false := by
    simp only [prefixedWarnings, relStr]
    rcases h : warn_about_potential_secrets c with _ | ⟨w, ws⟩
    · exact absurd h hw
    · simp
  have h2 : (prefixedWarnings ⟨rp, Except.ok c⟩ ++
      prefixedWarnings ⟨rp, Except.ok c⟩).isEmpty = false := by
    rcases h : prefixedWarnings ⟨rp, Except.ok c⟩ with _ | ⟨w, ws⟩
    · rw [h] at h1; simp at h1
    · simp
  refine ⟨⟨"Terraform Infrastructure as Code Package (tfpecker output)\n" ++
      repeatChar '=' 50 ++ "\n\n" ++ bang50 ++ "\n" ++ secretsReminder,
      "Repository Structure\n" ++ repeatChar '=' 20 ++ "\n\n" ++
        pathStr rp ++ "\n" ++ "\nFile Contents\n" ++ repeatChar '=' 20 ++ "\n\n" ++
        "File: " ++ pathStr rp ++ "\n" ++ repeatChar '-' ((pathStr rp).length + 6) ++
        "\n\n" ++ c ++ "\n\n" ++ "\n" ++ bang50 ++ "\n" ++ secretsReminder ++
        "\nPotential sensitive information detected:\n" ++
        String.join ((prefixedWarnings ⟨rp, Except.ok c⟩ ++
            prefixedWarnings ⟨rp, Except.ok c⟩).map (fun w => "- " ++ w ++ "\n")) ++
        bang50 ++ "\n", ?_⟩,
    ⟨"Terraform Infrastructure as Code Package (tfpecker output)\n" ++
      repeatChar '=' 50 ++ "\n\n" ++ bang50 ++ "\n" ++ secretsReminder ++
      "\nPotential sensitive information detected:\n" ++
      String.join ((prefixedWarnings ⟨rp, Except.ok c⟩).map
        (fun w => "- " ++ w ++ "\n")) ++ bang50 ++ "\n\n" ++
      "Repository Structure\n" ++ repeatChar '=' 20 ++ "\n\n" ++
      pathStr rp ++ "\n" ++ "\nFile Contents\n" ++ repeatChar '=' 20 ++ "\n\n",
      "\n" ++ bang50 ++ "\n" ++ secretsReminder ++
        "\nPotential sensitive information detected:\n" ++
        String.join ((prefixedWarnings ⟨rp, Except.ok c⟩ ++
            prefixedWarnings ⟨rp, Except.ok c⟩).map (fun w => "- " ++ w ++ "\n")) ++
        bang50 ++ "\n", ?_⟩,
    ⟨"Terraform Infrastructure as Code Package (tfpecker output)\n" ++
      repeatChar '=' 50 ++ "\n\n" ++ bang50 ++ "\n" ++ secretsReminder ++
      "\nPotential sensitive information detected:\n" ++
      String.join ((prefixedWarnings ⟨rp, Except.ok c⟩).map
        (fun w => "- " ++ w ++ "\n")) ++ bang50 ++ "\n\n" ++
      "Repository Structure\n" ++ repeatChar '=' 20 ++ "\n\n" ++
      pathStr rp ++ "\n" ++ "\nFile Contents\n" ++ repeatChar '=' 20 ++ "\n\n" ++
      "File: " ++ pathStr rp ++ "\n" ++ repeatChar '-' ((pathStr rp).length + 6) ++
      "\n\n" ++ c ++ "\n\n" ++ "\n" ++ bang50 ++ "\n" ++ secretsReminder, ?_⟩⟩ <;>
    (apply str_ext
     simp [pack_files, allWarnings, warningsBlock, fileBlock, relStr,
       processedContent, h1, h2, h3, join_cons, join_nil, String.append_empty,
       String.empty_append, str_data_append, List.append_assoc])

theorem C4_pack_three_places_witness :
    (warn_about_potential_secrets "password = 1" ≠ []) ∧
      ((∃ s1 s2, (pack_files false [⟨["main.tf"], Except.ok "password = 1"⟩]).1 =
          s1 ++ "\nPotential sensitive information detected:\n" ++
            String.join ((prefixedWarnings ⟨["main.tf"], Except.ok "password = 1"⟩).map
              (fun w => "- " ++ w ++ "\n")) ++ bang50 ++ "\n\n" ++ s2) ∧
        (∃ s1 s2, (pack_files false [⟨["main.tf"], Except.ok "password = 1"⟩]).1 =
          s1 ++ "File: " ++ pathStr ["main.tf"] ++ "\n" ++
            repeatChar '-' ((pathStr ["main.tf"]).length + 6) ++ "\n\n" ++
            "password = 1" ++ "\n\n" ++ s2) ∧
        (∃ s1, (pack_files false [⟨["main.tf"], Except.ok "password = 1"⟩]).1 =
          s1 ++ "\nPotential sensitive information detected:\n" ++
            String.join ((prefixedWarnings ⟨["main.tf"], Except.ok "password = 1"⟩ ++
                prefixedWarnings ⟨["main.tf"], Except.ok "password = 1"⟩).map
              (fun w => "- " ++ w ++ "\n")) ++ bang50 ++ "\n")) :=
  ⟨by decide, C4_pack_three_places ["main.tf"] "password = 1" (by decide)⟩

/-- C7: `pack_files` never propagates a per-file read error: a pre-scan
read failure is reported as a console line only and the file contributes no
warnings; a content-pass read failure yields a file block whose header line
and trailing blank separator are intact but whose content is replaced by a
textual error message, after which the blocks of the remaining files
follow; the warning accumulator is as if the failing file were absent. -/
theorem C7_read_errors_contained (rc : Bool) (pre rest : List PackFile)
    (rp : List String) (e : String) :
    (∃ c1 c2, (pack_files rc (pre ++ ⟨rp, Except.error e⟩ :: rest)).2 =
        c1 ++ ("Error reading file for security check: " ++ e) :: c2) ∧
      (∃ s1 s2, (pack_files rc (pre ++ ⟨rp, Except.error e⟩ :: rest)).1 =
        s1 ++ ("File: " ++ pathStr rp ++ "\n" ++
            repeatChar '-' ((pathStr rp).length + 6) ++ "\n\n" ++
            "Error reading file: " ++ e ++ "\n\n") ++
          String.join (rest.map (fileBlock rc)) ++ s2) ∧
      allWarnings rc (pre ++ ⟨rp, Except.error e⟩ :: rest) =
        allWarnings rc (pre ++ rest) := by
  refine ⟨⟨pre.flatMap prescanConsole,
      rest.flatMap prescanConsole ++
        warningConsole ((pre ++ ⟨rp, Except.error e⟩ :: rest).flatMap prefixedWarnings),
      ?_⟩, ?_, ?_⟩
  · simp [pack_files, prescanConsole, List.flatMap_append, List.append_assoc]
  · refine ⟨"Terraform Infrastructure as Code Package (tfpecker output)\n" ++
      repeatChar '=' 50 ++ "\n\n" ++ bang50 ++ "\n" ++ secretsReminder ++
      warningsBlock ((pre ++ ⟨rp, Except.error e⟩ :: rest).flatMap prefixedWarnings) ++
      bang50 ++ "\n\n" ++ "Repository Structure\n" ++ repeatChar '=' 20 ++ "\n\n" ++
      String.join ((pre ++ ⟨rp, Except.error e⟩ :: rest).map (fun f => relStr f ++ "\n")) ++
      "\nFile Contents\n" ++ repeatChar '=' 20 ++ "\n\n" ++
      String.join (pre.map (fileBlock rc)),
      "\n" ++ bang50 ++ "\n" ++ secretsReminder ++
        warningsBlock (allWarnings rc (pre ++ ⟨rp, Except.error e⟩ :: rest)) ++
        bang50 ++ "\n", ?_⟩
    apply str_ext
    simp [pack_files, fileBlock, relStr, join_cons, join_nil, join_append,
      String.append_empty, String.empty_append, str_data_append, List.append_assoc]
  · simp [allWarnings, prefixedWarnings, contentWarnings, List.flatMap_append]

/-- C10: `remove_terraform_comments` is not idempotent: on
`"A//*c*/*B*/C"` one application yields `"A/*B*/C"`, whose spliced-together
`/* ... */` pair only a second application removes, yielding `"AC"`. -/
theorem C10_not_idempotent :
    remove_terraform_comments (remove_terraform_comments "A//*c*/*B*/C") ≠
      remove_terraform_comments "A//*c*/*B*/C" := by decide

end Tfpecker
